import Mathlib

/-!
# Verification of the patient-form OCR field-extraction engine

Shallow embedding of `src/form_processor.py` (`FormProcessor.parse_ocr_output`
and its helpers).  The Python code applies a fixed catalog of `re.search`
patterns to the OCR text.  Every pattern used falls into one of seven fixed
shapes, so instead of a general regex engine we embed each shape as an explicit
matcher on `List Char`, each one faithful to Python's leftmost-search /
greedy / lazy semantics for that exact pattern:

  * `LABEL\s*:\s*(.*)`            — single-line text        (`reTextFlex`)
  * `LABEL:(.*)`                  — single-line text, colon in literal (`reTextLit`)
  * `LABEL:(.*?)(?=\n\S)` DOTALL  — lazy multiline text     (`reMultiline`)
  * `LABEL:\s*([0-5])`            — one digit 0–5           (`reDigit05`)
  * `LABEL:\s*([0-9]{1,2})`       — one or two digits       (`reDigits12`)
  * `LABEL\s*:\s*(\d+)`           — one-or-more digits      (`reDigitsPlus`)
  * `LABEL\s*:\s*(YES|NO)`        — checkbox                (`reCheckbox`)

`re.search` itself is embedded by `searchAux`, which tries the matcher at every
position of the text from left to right and returns the first success — exactly
Python's leftmost-match rule.  Greedy `\s*` before a non-whitespace requirement
is maximal-munch (the skipped run can never satisfy the next requirement, so no
backtracking is observable); greedy `(.*)` / `\d+` with nothing after them are
maximal-munch; the lazy `(.*?)(?=\n\S)` stops at the earliest position whose
next two characters are a newline followed by a non-whitespace character.

Python's `int()` is modelled on the digit-only capture language these patterns
produce (`pyInt?`); `int()` agrees with this on every all-digit string and the
model returns `none` exactly where `int()` would raise `ValueError`, which we
surface through an `Except PyErr` result, so "extraction never raises" is a
theorem rather than a modelling artifact.
-/

set_option maxRecDepth 100000

/-- Equality on `Except` results is decidable when it is on both components
(needed to evaluate concrete extraction runs inside proofs). -/
instance {ε α : Type} [DecidableEq ε] [DecidableEq α] : DecidableEq (Except ε α) :=
  fun x y =>
    match x, y with
    | .ok a, .ok b =>
      if h : a = b then isTrue (by rw [h])
      else isFalse (by intro he; cases he; exact h rfl)
    | .error a, .error b =>
      if h : a = b then isTrue (by rw [h])
      else isFalse (by intro he; cases he; exact h rfl)
    | .ok _, .error _ => isFalse (by intro he; cases he)
    | .error _, .ok _ => isFalse (by intro he; cases he)

namespace FormProc

/-- Python `\s` on the ASCII range: space, `\t`, `\n`, `\v`, `\f`, `\r`.
(Python's `\s` also matches some further Unicode whitespace; the form labels
and the properties at issue only involve ASCII.) -/
def isPySpace (c : Char) : Bool :=
  c = ' ' || c = '\t' || c = '\n' || c = Char.ofNat 11 || c = Char.ofNat 12 || c = '\r'

/-- Right-strip: drop trailing characters satisfying `p`. -/
def rstripList (p : Char → Bool) : List Char → List Char
  | [] => []
  | c :: cs =>
    let r := rstripList p cs
    if r = [] && p c then [] else c :: r

/-- Python `str.strip()`: drop leading and trailing whitespace. -/
def pyStrip (l : List Char) : List Char :=
  rstripList isPySpace (l.dropWhile isPySpace)

/-- Decimal value of a digit string. -/
def digitsVal (l : List Char) : Nat :=
  l.foldl (fun a c => a * 10 + (c.toNat - 48)) 0

/-- Python `int()` restricted to the digit-only capture language of the
patterns in this file: an all-digit, nonempty string converts to its decimal
value; anything else is `none` (where `int()` raises `ValueError`).  Python's
`int()` also accepts signs and surrounding whitespace, which these captures
never contain. -/
def pyInt? (l : List Char) : Option Int :=
  if !l.isEmpty && l.all Char.isDigit then some (Int.ofNat (digitsVal l))
  else none

/-- Match a literal character sequence as a prefix, returning the remainder. -/
def matchLit : List Char → List Char → Option (List Char)
  | [], s => some s
  | _ :: _, [] => none
  | l :: ls, c :: cs => if c = l then matchLit ls cs else none

/-- Greedy `\s*`. -/
def skipWs (s : List Char) : List Char :=
  s.dropWhile isPySpace

/-- `\s*:` — greedy whitespace, then a required colon (whitespace never
matches `:`, so maximal munch is exact). -/
def matchColonFlex (s : List Char) : Option (List Char) :=
  match skipWs s with
  | ':' :: r => some r
  | _ => none

/-- `(.*)` without DOTALL — everything up to the next newline (or end). -/
def captureLine (s : List Char) : List Char :=
  s.takeWhile (· ≠ '\n')

/-- Lazy `(.*?)(?=\n\S)` under DOTALL: the shortest capture ending where the
remaining text starts with a newline followed by a non-whitespace character;
no such position means the pattern fails here. -/
def lazyCapture : List Char → Option (List Char)
  | [] => none
  | c :: cs =>
    if c = '\n' && (match cs with | d :: _ => !isPySpace d | [] => false)
    then some []
    else (lazyCapture cs).map (c :: ·)

/-- `LABEL\s*:\s*(.*)` at one position. -/
def reTextFlex (lab s : List Char) : Option (List Char) :=
  (matchLit lab s).bind fun r =>
    (matchColonFlex r).map fun r2 => captureLine (skipWs r2)

/-- `LIT(.*)` at one position (the literal already ends with the colon). -/
def reTextLit (lit s : List Char) : Option (List Char) :=
  (matchLit lit s).map captureLine

/-- `LIT(.*?)(?=\n\S)` with DOTALL at one position. -/
def reMultiline (lit s : List Char) : Option (List Char) :=
  (matchLit lit s).bind lazyCapture

/-- `LIT\s*([0-5])` at one position (the literal already ends with the colon). -/
def reDigit05 (lit s : List Char) : Option (List Char) :=
  (matchLit lit s).bind fun r =>
    match skipWs r with
    | c :: _ => if '0' ≤ c ∧ c ≤ '5' then some [c] else none
    | [] => none

/-- `LIT\s*([0-9]{1,2})` at one position: greedy, so two digits when the
second character is also a digit, else one. -/
def reDigits12 (lit s : List Char) : Option (List Char) :=
  (matchLit lit s).bind fun r =>
    match skipWs r with
    | c :: rest =>
      if c.isDigit then
        some (match rest with
          | d :: _ => if d.isDigit then [c, d] else [c]
          | [] => [c])
      else none
    | [] => none

/-- `LABEL\s*:\s*(\d+)` at one position: maximal digit run, at least one. -/
def reDigitsPlus (lab s : List Char) : Option (List Char) :=
  (matchLit lab s).bind fun r =>
    (matchColonFlex r).bind fun r2 =>
      let ds := (skipWs r2).takeWhile Char.isDigit
      if ds = [] then none else some ds

/-- `LABEL\s*:\s*(YES|NO)` at one position. -/
def reCheckbox (lab s : List Char) : Option (List Char) :=
  (matchLit lab s).bind fun r =>
    (matchColonFlex r).bind fun r2 =>
      let r3 := skipWs r2
      if ['Y', 'E', 'S'].isPrefixOf r3 then some ['Y', 'E', 'S']
      else if ['N', 'O'].isPrefixOf r3 then some ['N', 'O']
      else none

/-- `re.search`: try the matcher at every position, left to right, returning
the first success. -/
def searchAux (m : List Char → Option α) : List Char → Option α
  | [] => m []
  | s@(_ :: rest) =>
    match m s with
    | some v => some v
    | none => searchAux m rest

/-- The matcher applied at position `i` of the text (for stating the
leftmost-match property of `searchAux`). -/
def matchAt (m : List Char → Option α) (t : List Char) (i : Nat) : Option α :=
  m (t.drop i)

/-- Python-side exceptions the extraction core could in principle raise. -/
inductive PyErr where
  | valueError
  deriving DecidableEq, Repr

/-- A JSON-able field value: the Python code stores either a string or an int. -/
inductive PyVal where
  | str (s : String)
  | int (n : Int)
  deriving DecidableEq, Repr

/-- `_find_value`: search, then `.strip()` the capture.  (`dotall` and the
pattern are both baked into the matcher argument.) -/
def find_value (m : List Char → Option (List Char)) (t : List Char) :
    Option (List Char) :=
  (searchAux m t).map pyStrip

/-- `_find_numeric_value`: search, then `int(...)` the capture — which raises
`ValueError` (modelled as `Except.error`) if the capture is not an integer
literal. -/
def find_numeric_value (m : List Char → Option (List Char)) (t : List Char) :
    Except PyErr (Option Int) :=
  match searchAux m t with
  | none => .ok none
  | some cap =>
    match pyInt? cap with
    | none => .error .valueError
    | some n => .ok (some n)

/-- `_find_checkbox`: search, return the capture unstripped. -/
def find_checkbox (m : List Char → Option (List Char)) (t : List Char) :
    Option (List Char) :=
  searchAux m t

/-- `self.difficulty_tasks`. -/
def difficulty_tasks : List String :=
  ["bending_or_stooping", "putting_on_shoes", "sleeping",
   "standing_for_an_hour", "stairs", "walking_through_store",
   "driving", "preparing_meal", "yard_work", "picking_up_items"]

/-- `self.pain_symptoms`. -/
def pain_symptoms : List String :=
  ["pain", "numbness", "tingling", "burning", "tightness"]

/-- Helper for `str.title()`: the boolean tracks whether the previous
character was cased. -/
def pyTitleGo : Bool → List Char → List Char
  | _, [] => []
  | prev, c :: cs =>
    if c.isAlpha then (if prev then c.toLower else c.toUpper) :: pyTitleGo true cs
    else c :: pyTitleGo false cs

/-- Python `str.title()` on ASCII: uppercase each letter that follows a
non-letter, lowercase the rest. -/
def pyTitle (l : List Char) : List Char :=
  pyTitleGo false l

/-- `task.replace('_', ' ').title()` followed by the colon of the pattern
`rf"{...}:\s*([0-5])"`. -/
def taskLabel (task : String) : List Char :=
  pyTitle (task.data.map (fun c => if c = '_' then ' ' else c)) ++ [':']

/-- `symptom.title()` followed by the colon of `rf"{...}:\s*([0-9]{1,2})"`. -/
def symptomLabel (symptom : String) : List Char :=
  pyTitle symptom.data ++ [':']

/-- Dict comprehension `{name: self._find_numeric_value(mk name, text) ...}`,
evaluated left to right; an `int()` failure propagates as the exception it
would raise in Python. -/
def numericTable (mk : String → List Char → Option (List Char)) :
    List String → List Char → Except PyErr (List (String × Option PyVal))
  | [], _ => .ok []
  | n :: ns, t =>
    match find_numeric_value (mk n) t with
    | .error e => .error e
    | .ok v =>
      match numericTable mk ns t with
      | .error e => .error e
      | .ok rest => .ok ((n, v.map PyVal.int) :: rest)

/-- `_extract_patient_info`. -/
def extract_patient_info (t : List Char) : List (String × Option PyVal) :=
  [("patient_name",
     (find_value (reTextFlex "Patient Name".data) t).map (fun l => PyVal.str (String.mk l))),
   ("dob",
     (find_value (reTextFlex "DOB".data) t).map (fun l => PyVal.str (String.mk l)))]

/-- `_extract_treatment_info`. -/
def extract_treatment_info (t : List Char) : List (String × Option PyVal) :=
  [("date",
     (find_value (reTextFlex "Date".data) t).map (fun l => PyVal.str (String.mk l))),
   ("injection",
     (find_checkbox (reCheckbox "INJECTION".data) t).map (fun l => PyVal.str (String.mk l))),
   ("exercise_therapy",
     (find_checkbox (reCheckbox "Exercise Therapy".data) t).map (fun l => PyVal.str (String.mk l)))]

/-- `_extract_difficulty_ratings`. -/
def extract_difficulty_ratings (t : List Char) :
    Except PyErr (List (String × Option PyVal)) :=
  numericTable (fun task => reDigit05 (taskLabel task)) difficulty_tasks t

/-- `_extract_patient_changes`. -/
def extract_patient_changes (t : List Char) : List (String × Option PyVal) :=
  [("since_last_treatment",
     (find_value (reMultiline "Patient changes since last treatment:".data) t).map
       (fun l => PyVal.str (String.mk l))),
   ("since_start_of_treatment",
     (find_value (reMultiline "Patient changes since the start of treatment:".data) t).map
       (fun l => PyVal.str (String.mk l))),
   ("last_3_days",
     (find_value (reTextLit "Describe any functional changes within the last three days (good or bad):".data) t).map
       (fun l => PyVal.str (String.mk l)))]

/-- `_extract_pain_symptoms`. -/
def extract_pain_symptoms (t : List Char) :
    Except PyErr (List (String × Option PyVal)) :=
  numericTable (fun symptom => reDigits12 (symptomLabel symptom)) pain_symptoms t

/-- `_extract_ma_data`. -/
def extract_ma_data (t : List Char) :
    Except PyErr (List (String × Option PyVal)) :=
  match find_numeric_value (reDigitsPlus "HR".data) t with
  | .error e => .error e
  | .ok hr =>
  match find_numeric_value (reDigitsPlus "Weight".data) t with
  | .error e => .error e
  | .ok weight =>
  match find_numeric_value (reDigitsPlus "SpO2".data) t with
  | .error e => .error e
  | .ok spo2 =>
  match find_numeric_value (reDigitsPlus "Blood Glucose".data) t with
  | .error e => .error e
  | .ok blood_glucose =>
  match find_numeric_value (reDigitsPlus "Respirations".data) t with
  | .error e => .error e
  | .ok respirations =>
    .ok
      [("blood_pressure",
         (find_value (reTextFlex "Blood Pressure".data) t).map (fun l => PyVal.str (String.mk l))),
       ("hr", hr.map PyVal.int),
       ("weight", weight.map PyVal.int),
       ("height",
         (find_value (reTextFlex "Height".data) t).map (fun l => PyVal.str (String.mk l))),
       ("spo2", spo2.map PyVal.int),
       ("temperature",
         (find_value (reTextFlex "Temperature".data) t).map (fun l => PyVal.str (String.mk l))),
       ("blood_glucose", blood_glucose.map PyVal.int),
       ("respirations", respirations.map PyVal.int)]

/-- The assembled output of `parse_ocr_output`: six named groups, each a
key-ordered mapping from field name to value-or-null (Python dict → assoc
list preserving insertion order). -/
structure StructuredRecord where
  patient_details : List (String × Option PyVal)
  treatment_details : List (String × Option PyVal)
  difficulty_ratings : List (String × Option PyVal)
  patient_changes : List (String × Option PyVal)
  pain_symptoms : List (String × Option PyVal)
  medical_assistant_data : List (String × Option PyVal)
  deriving DecidableEq, Repr

/-- `FormProcessor.parse_ocr_output`, with Python exceptions surfaced in
`Except` (the group expressions of the dict literal evaluate top to bottom). -/
def parse_ocr_output (text : String) : Except PyErr StructuredRecord :=
  match extract_difficulty_ratings text.data with
  | .error e => .error e
  | .ok dr =>
  match extract_pain_symptoms text.data with
  | .error e => .error e
  | .ok ps =>
  match extract_ma_data text.data with
  | .error e => .error e
  | .ok ma =>
    .ok
      { patient_details := extract_patient_info text.data
        treatment_details := extract_treatment_info text.data
        difficulty_ratings := dr
        patient_changes := extract_patient_changes text.data
        pain_symptoms := ps
        medical_assistant_data := ma }

/-- Spec-side predicate: the value of a single-line `Text` field is one line
(no embedded line break) with no leading or trailing whitespace. -/
def SingleLineTrimmed (s : String) : Prop :=
  '\n' ∉ s.data ∧
  (∀ c, s.data.head? = some c → isPySpace c = false) ∧
  (∀ c, s.data.getLast? = some c → isPySpace c = false)

/-- The record the spec expects for total OCR failure: every declared group
and field present, every value null. -/
def emptyRecord : StructuredRecord where
  patient_details := [("patient_name", none), ("dob", none)]
  treatment_details := [("date", none), ("injection", none), ("exercise_therapy", none)]
  difficulty_ratings := difficulty_tasks.map (fun n => (n, none))
  patient_changes :=
    [("since_last_treatment", none), ("since_start_of_treatment", none), ("last_3_days", none)]
  pain_symptoms := pain_symptoms.map (fun n => (n, none))
  medical_assistant_data :=
    [("blood_pressure", none), ("hr", none), ("weight", none), ("height", none),
     ("spo2", none), ("temperature", none), ("blood_glucose", none), ("respirations", none)]

/-! ## Generic lemmas about the embedded search and captures -/

lemma char_le_iff_toNat {a b : Char} : a ≤ b ↔ a.toNat ≤ b.toNat := by
  rw [Char.le_def, UInt32.le_def, BitVec.le_def]
  exact Iff.rfl

lemma char_toNat_le_of_le {a b : Char} (h : a ≤ b) : a.toNat ≤ b.toNat :=
  char_le_iff_toNat.mp h

lemma uint32_le_iff_toNat {a b : UInt32} : a ≤ b ↔ a.toNat ≤ b.toNat := by
  rw [UInt32.le_def, BitVec.le_def]
  exact Iff.rfl

lemma char_isDigit_iff_toNat {c : Char} :
    c.isDigit = true ↔ 48 ≤ c.toNat ∧ c.toNat ≤ 57 := by
  unfold Char.isDigit
  simp only [Bool.and_eq_true, decide_eq_true_eq, ge_iff_le]
  rw [uint32_le_iff_toNat, uint32_le_iff_toNat]
  exact Iff.rfl

lemma char_toNat_le_of_isDigit {c : Char} (h : c.isDigit = true) :
    48 ≤ c.toNat ∧ c.toNat ≤ 57 :=
  char_isDigit_iff_toNat.mp h

/-- If the matcher's successes all satisfy `P`, so does any `searchAux` result. -/
lemma searchAux_pred {α : Type} (m : List Char → Option α) (P : α → Prop)
    (hm : ∀ s v, m s = some v → P v) :
    ∀ t v, searchAux m t = some v → P v := by
  intro t
  induction t with
  | nil => intro v h; exact hm [] v h
  | cons c rest ih =>
    intro v h
    rw [searchAux] at h
    cases hms : m (c :: rest) with
    | some w =>
      rw [hms] at h
      cases h
      exact hm _ _ hms
    | none =>
      rw [hms] at h
      exact ih v h

lemma matchAt_nil {α : Type} (m : List Char → Option α) (i : Nat) :
    matchAt m [] i = m [] := by
  simp [matchAt]

lemma matchAt_zero {α : Type} (m : List Char → Option α) (t : List Char) :
    matchAt m t 0 = m t := rfl

lemma matchAt_succ_cons {α : Type} (m : List Char → Option α) (c : Char)
    (rest : List Char) (i : Nat) :
    matchAt m (c :: rest) (i + 1) = matchAt m rest i := by
  simp [matchAt]

/-- `searchAux` returns the match at the least position where the matcher
succeeds: if every position before `i` fails and `i` succeeds, the search
result is the match at `i`. -/
lemma searchAux_leftmost {α : Type} (m : List Char → Option α) :
    ∀ (t : List Char) (i : Nat),
      (∀ j, j < i → matchAt m t j = none) → matchAt m t i ≠ none →
      searchAux m t = matchAt m t i := by
  intro t
  induction t with
  | nil =>
    intro i _ _
    rw [matchAt_nil, searchAux]
  | cons c rest ih =>
    intro i hb hi
    cases i with
    | zero =>
      rw [matchAt_zero] at hi ⊢
      rw [searchAux]
      cases hms : m (c :: rest) with
      | some w => rfl
      | none => exact absurd hms hi
    | succ i' =>
      have h0 : m (c :: rest) = none := hb 0 (Nat.succ_pos _)
      rw [searchAux, h0]
      rw [matchAt_succ_cons] at hi ⊢
      refine ih i' (fun j hj => ?_) hi
      have := hb (j + 1) (Nat.succ_lt_succ hj)
      rwa [matchAt_succ_cons] at this

/-! ### Capture shapes of the individual pattern embeddings -/

lemma reDigit05_shape {lit s cap : List Char} (h : reDigit05 lit s = some cap) :
    ∃ c, cap = [c] ∧ '0' ≤ c ∧ c ≤ '5' := by
  unfold reDigit05 at h
  cases hml : matchLit lit s with
  | none => rw [hml] at h; cases h
  | some r =>
    rw [hml] at h
    simp only [Option.some_bind] at h
    cases hsw : skipWs r with
    | nil => rw [hsw] at h; cases h
    | cons c rest =>
      rw [hsw] at h
      dsimp only at h
      by_cases hc : '0' ≤ c ∧ c ≤ '5'
      · rw [if_pos hc] at h
        cases h
        exact ⟨c, rfl, hc⟩
      · rw [if_neg hc] at h
        cases h

lemma reDigits12_shape {lit s cap : List Char} (h : reDigits12 lit s = some cap) :
    cap ≠ [] ∧ cap.all Char.isDigit = true ∧ cap.length ≤ 2 := by
  unfold reDigits12 at h
  cases hml : matchLit lit s with
  | none => rw [hml] at h; cases h
  | some r =>
    rw [hml] at h
    simp only [Option.some_bind] at h
    cases hsw : skipWs r with
    | nil => rw [hsw] at h; cases h
    | cons c rest =>
      rw [hsw] at h
      dsimp only at h
      by_cases hc : c.isDigit = true
      · rw [if_pos hc] at h
        cases rest with
        | nil =>
          cases h
          simp [hc]
        | cons d rest' =>
          dsimp only at h
          by_cases hd : d.isDigit = true
          · rw [if_pos hd] at h
            cases h
            simp [hc, hd]
          · rw [if_neg hd] at h
            cases h
            simp [hc]
      · rw [if_neg hc] at h
        cases h

lemma reDigitsPlus_shape {lab s cap : List Char} (h : reDigitsPlus lab s = some cap) :
    cap ≠ [] ∧ cap.all Char.isDigit = true := by
  unfold reDigitsPlus at h
  cases hml : matchLit lab s with
  | none => rw [hml] at h; cases h
  | some r =>
    rw [hml] at h
    simp only [Option.some_bind] at h
    cases hcf : matchColonFlex r with
    | none => rw [hcf] at h; cases h
    | some r2 =>
      rw [hcf] at h
      simp only [Option.some_bind] at h
      by_cases hds : (skipWs r2).takeWhile Char.isDigit = []
      · rw [if_pos hds] at h; cases h
      · rw [if_neg hds] at h
        cases h
        refine ⟨hds, ?_⟩
        rw [List.all_eq_true]
        intro x hx
        exact List.mem_takeWhile_imp hx

lemma reCheckbox_shape {lab s cap : List Char} (h : reCheckbox lab s = some cap) :
    cap = ['Y', 'E', 'S'] ∨ cap = ['N', 'O'] := by
  unfold reCheckbox at h
  cases hml : matchLit lab s with
  | none => rw [hml] at h; cases h
  | some r =>
    rw [hml] at h
    simp only [Option.some_bind] at h
    cases hcf : matchColonFlex r with
    | none => rw [hcf] at h; cases h
    | some r2 =>
      rw [hcf] at h
      simp only [Option.some_bind] at h
      by_cases hy : ['Y', 'E', 'S'].isPrefixOf (skipWs r2) = true
      · rw [if_pos hy] at h
        cases h
        exact Or.inl rfl
      · rw [if_neg hy] at h
        by_cases hn : ['N', 'O'].isPrefixOf (skipWs r2) = true
        · rw [if_pos hn] at h
          cases h
          exact Or.inr rfl
        · rw [if_neg hn] at h
          cases h

lemma captureLine_no_newline {s : List Char} : '\n' ∉ captureLine s := by
  intro hmem
  have := List.mem_takeWhile_imp hmem
  simp at this

lemma reTextFlex_shape {lab s cap : List Char} (h : reTextFlex lab s = some cap) :
    '\n' ∉ cap := by
  unfold reTextFlex at h
  cases hml : matchLit lab s with
  | none => rw [hml] at h; cases h
  | some r =>
    rw [hml] at h
    simp only [Option.some_bind] at h
    cases hcf : matchColonFlex r with
    | none => rw [hcf] at h; cases h
    | some r2 =>
      rw [hcf] at h
      cases h
      exact captureLine_no_newline

lemma reTextLit_shape {lit s cap : List Char} (h : reTextLit lit s = some cap) :
    '\n' ∉ cap := by
  unfold reTextLit at h
  cases hml : matchLit lit s with
  | none => rw [hml] at h; cases h
  | some r =>
    rw [hml] at h
    cases h
    exact captureLine_no_newline

/-! ### Values of digit captures -/

lemma foldl_digits_lt {l : List Char} (h : l.all Char.isDigit = true) :
    ∀ a : Nat, l.foldl (fun a c => a * 10 + (c.toNat - 48)) a < (a + 1) * 10 ^ l.length := by
  induction l with
  | nil =>
    intro a
    simp
  | cons c cs ih =>
    intro a
    rw [List.all_cons, Bool.and_eq_true] at h
    obtain ⟨hc, hcs⟩ := h
    have hd : c.toNat - 48 ≤ 9 := by
      have := char_toNat_le_of_isDigit hc
      omega
    have step := ih hcs (a * 10 + (c.toNat - 48))
    calc List.foldl (fun a c => a * 10 + (c.toNat - 48)) a (c :: cs)
        = List.foldl (fun a c => a * 10 + (c.toNat - 48)) (a * 10 + (c.toNat - 48)) cs := by
          simp [List.foldl_cons]
      _ < (a * 10 + (c.toNat - 48) + 1) * 10 ^ cs.length := step
      _ ≤ ((a + 1) * 10) * 10 ^ cs.length := by
          have : a * 10 + (c.toNat - 48) + 1 ≤ (a + 1) * 10 := by omega
          exact Nat.mul_le_mul_right _ this
      _ = (a + 1) * 10 ^ (c :: cs).length := by
          rw [List.length_cons, pow_succ]
          ring

lemma digitsVal_lt {l : List Char} (h : l.all Char.isDigit = true) :
    digitsVal l < 10 ^ l.length := by
  have := foldl_digits_lt h 0
  simpa [digitsVal] using this

lemma digitsVal_single {c : Char} : digitsVal [c] = c.toNat - 48 := by
  simp [digitsVal]

lemma pyInt?_digits {l : List Char} (h1 : l ≠ []) (h2 : l.all Char.isDigit = true) :
    pyInt? l = some (Int.ofNat (digitsVal l)) := by
  unfold pyInt?
  have he : l.isEmpty = false := by
    cases l with
    | nil => exact absurd rfl h1
    | cons c cs => rfl
  rw [he, h2]
  rfl

/-! ### `_find_numeric_value` never raises on the digit-shaped patterns -/

/-- When every capture of the matcher is a nonempty digit string, `int()`
succeeds, so `_find_numeric_value` returns normally. -/
lemma find_numeric_value_ok {m : List Char → Option (List Char)} {t : List Char}
    (hm : ∀ s cap, m s = some cap → cap ≠ [] ∧ cap.all Char.isDigit = true) :
    ∃ v, find_numeric_value m t = .ok v := by
  unfold find_numeric_value
  cases hs : searchAux m t with
  | none => exact ⟨none, rfl⟩
  | some cap =>
    dsimp only
    have hcap := searchAux_pred m (fun cap => cap ≠ [] ∧ cap.all Char.isDigit = true) hm t cap hs
    rw [pyInt?_digits hcap.1 hcap.2]
    exact ⟨some _, rfl⟩

/-- A present numeric result comes from a successful search whose capture
`int()`-converts to that value. -/
lemma find_numeric_value_some {m : List Char → Option (List Char)} {t : List Char} {k : Int}
    (h : find_numeric_value m t = .ok (some k)) :
    ∃ cap, searchAux m t = some cap ∧ pyInt? cap = some k := by
  unfold find_numeric_value at h
  cases hs : searchAux m t with
  | none => rw [hs] at h; cases h
  | some cap =>
    rw [hs] at h
    dsimp only at h
    cases hp : pyInt? cap with
    | none => rw [hp] at h; cases h
    | some n =>
      rw [hp] at h
      cases h
      exact ⟨cap, rfl, hp⟩

/-! ### The rating/symptom dict comprehension -/

lemma numericTable_ok {mk : String → List Char → Option (List Char)}
    {names : List String} {t : List Char}
    (h : ∀ n, ∃ v, find_numeric_value (mk n) t = .ok v) :
    ∃ l, numericTable mk names t = .ok l ∧ l.map Prod.fst = names := by
  induction names with
  | nil => exact ⟨[], rfl, rfl⟩
  | cons n ns ih =>
    obtain ⟨v, hv⟩ := h n
    obtain ⟨l, hl, hkeys⟩ := ih
    refine ⟨(n, v.map PyVal.int) :: l, ?_, ?_⟩
    · rw [numericTable, hv, hl]
    · simp [hkeys]

lemma numericTable_keys {mk : String → List Char → Option (List Char)}
    {names : List String} {t : List Char} {l : List (String × Option PyVal)}
    (h : numericTable mk names t = .ok l) : l.map Prod.fst = names := by
  induction names generalizing l with
  | nil =>
    rw [numericTable] at h
    cases h
    rfl
  | cons n ns ih =>
    rw [numericTable] at h
    cases hv : find_numeric_value (mk n) t with
    | error e => rw [hv] at h; cases h
    | ok v =>
      rw [hv] at h
      cases hrest : numericTable mk ns t with
      | error e => rw [hrest] at h; cases h
      | ok rest =>
        rw [hrest] at h
        cases h
        simp [ih hrest]

/-- Every entry of the comprehension result is the `_find_numeric_value`
outcome for its own name. -/
lemma numericTable_mem {mk : String → List Char → Option (List Char)}
    {names : List String} {t : List Char} {l : List (String × Option PyVal)}
    {n : String} {v : Option PyVal}
    (h : numericTable mk names t = .ok l) (hmem : (n, v) ∈ l) :
    ∃ w, find_numeric_value (mk n) t = .ok w ∧ v = w.map PyVal.int := by
  induction names generalizing l with
  | nil =>
    rw [numericTable] at h
    cases h
    cases hmem
  | cons n' ns ih =>
    rw [numericTable] at h
    cases hv : find_numeric_value (mk n') t with
    | error e => rw [hv] at h; cases h
    | ok w =>
      rw [hv] at h
      cases hrest : numericTable mk ns t with
      | error e => rw [hrest] at h; cases h
      | ok rest =>
        rw [hrest] at h
        cases h
        rcases List.mem_cons.mp hmem with heq | hmem'
        · cases heq
          exact ⟨w, hv, rfl⟩
        · exact ih hrest hmem'

/-! ### Totality of the extraction pipeline -/

lemma reDigit05_digits {lit s cap : List Char} (h : reDigit05 lit s = some cap) :
    cap ≠ [] ∧ cap.all Char.isDigit = true := by
  obtain ⟨c, rfl, h0, h5⟩ := reDigit05_shape h
  refine ⟨by simp, ?_⟩
  have t0 := char_toNat_le_of_le h0
  have t5 := char_toNat_le_of_le h5
  have h0' : ('0' : Char).toNat = 48 := rfl
  have h5' : ('5' : Char).toNat = 53 := rfl
  simp only [List.all_cons, List.all_nil, Bool.and_true]
  exact char_isDigit_iff_toNat.mpr (by omega)

lemma reDigits12_digits {lit s cap : List Char} (h : reDigits12 lit s = some cap) :
    cap ≠ [] ∧ cap.all Char.isDigit = true :=
  ⟨(reDigits12_shape h).1, (reDigits12_shape h).2.1⟩

lemma extract_difficulty_ratings_ok (t : List Char) :
    ∃ l, extract_difficulty_ratings t = .ok l ∧ l.map Prod.fst = difficulty_tasks := by
  unfold extract_difficulty_ratings
  exact numericTable_ok (fun n =>
    find_numeric_value_ok (fun s cap h => reDigit05_digits h))

lemma extract_pain_symptoms_ok (t : List Char) :
    ∃ l, extract_pain_symptoms t = .ok l ∧ l.map Prod.fst = pain_symptoms := by
  unfold extract_pain_symptoms
  exact numericTable_ok (fun n =>
    find_numeric_value_ok (fun s cap h => reDigits12_digits h))

lemma extract_ma_data_ok (t : List Char) :
    ∃ l, extract_ma_data t = .ok l ∧
      l.map Prod.fst = ["blood_pressure", "hr", "weight", "height", "spo2",
                        "temperature", "blood_glucose", "respirations"] := by
  unfold extract_ma_data
  obtain ⟨v1, h1⟩ := find_numeric_value_ok (m := reDigitsPlus "HR".data) (t := t)
    (fun s cap h => reDigitsPlus_shape h)
  obtain ⟨v2, h2⟩ := find_numeric_value_ok (m := reDigitsPlus "Weight".data) (t := t)
    (fun s cap h => reDigitsPlus_shape h)
  obtain ⟨v3, h3⟩ := find_numeric_value_ok (m := reDigitsPlus "SpO2".data) (t := t)
    (fun s cap h => reDigitsPlus_shape h)
  obtain ⟨v4, h4⟩ := find_numeric_value_ok (m := reDigitsPlus "Blood Glucose".data) (t := t)
    (fun s cap h => reDigitsPlus_shape h)
  obtain ⟨v5, h5⟩ := find_numeric_value_ok (m := reDigitsPlus "Respirations".data) (t := t)
    (fun s cap h => reDigitsPlus_shape h)
  rw [h1, h2, h3, h4, h5]
  exact ⟨_, rfl, rfl⟩

/-- `parse_ocr_output` never raises: every input yields a structured record. -/
lemma parse_total (text : String) : ∃ r, parse_ocr_output text = .ok r := by
  unfold parse_ocr_output
  obtain ⟨dr, hdr, _⟩ := extract_difficulty_ratings_ok text.data
  obtain ⟨ps, hps, _⟩ := extract_pain_symptoms_ok text.data
  obtain ⟨ma, hma, _⟩ := extract_ma_data_ok text.data
  rw [hdr, hps, hma]
  exact ⟨_, rfl⟩

/-- Reading off the six groups of a successfully parsed record. -/
lemma parse_fields {text : String} {r : StructuredRecord}
    (h : parse_ocr_output text = .ok r) :
    extract_difficulty_ratings text.data = .ok r.difficulty_ratings ∧
    extract_pain_symptoms text.data = .ok r.pain_symptoms ∧
    extract_ma_data text.data = .ok r.medical_assistant_data ∧
    r.patient_details = extract_patient_info text.data ∧
    r.treatment_details = extract_treatment_info text.data ∧
    r.patient_changes = extract_patient_changes text.data := by
  unfold parse_ocr_output at h
  cases hdr : extract_difficulty_ratings text.data with
  | error e => rw [hdr] at h; cases h
  | ok dr =>
    rw [hdr] at h
    cases hps : extract_pain_symptoms text.data with
    | error e => rw [hps] at h; cases h
    | ok ps =>
      rw [hps] at h
      cases hma : extract_ma_data text.data with
      | error e => rw [hma] at h; cases h
      | ok ma =>
        rw [hma] at h
        cases h
        exact ⟨rfl, rfl, rfl, rfl, rfl, rfl⟩

/-! ### `strip` properties -/

lemma rstripList_head? {p : Char → Bool} {x : List Char} {c : Char}
    (h : (rstripList p x).head? = some c) : x.head? = some c := by
  cases x with
  | nil => cases h
  | cons d ds =>
    rw [rstripList] at h
    by_cases hc : rstripList p ds = [] ∧ p d = true
    · rw [if_pos (by simp [hc.1, hc.2])] at h
      cases h
    · rw [if_neg (by simpa using fun h1 h2 => hc ⟨h1, h2⟩)] at h
      cases h
      rfl

lemma rstripList_getLast_not {p : Char → Bool} {x : List Char} {c : Char}
    (h : (rstripList p x).getLast? = some c) : p c = false := by
  induction x with
  | nil => cases h
  | cons d ds ih =>
    rw [rstripList] at h
    by_cases hnil : rstripList p ds = []
    · by_cases hd : p d = true
      · rw [if_pos (by simp [hnil, hd])] at h
        cases h
      · rw [if_neg (by simp [hd])] at h
        rw [hnil] at h
        cases h
        simpa using hd
    · rw [if_neg (by simp [hnil])] at h
      cases hr : rstripList p ds with
      | nil => exact absurd hr hnil
      | cons e es =>
        rw [hr] at h
        rw [List.getLast?_cons_cons] at h
        rw [← hr] at h
        exact ih h

lemma rstripList_subset {p : Char → Bool} {x : List Char} {c : Char}
    (h : c ∈ rstripList p x) : c ∈ x := by
  induction x with
  | nil => cases h
  | cons d ds ih =>
    rw [rstripList] at h
    by_cases hc : rstripList p ds = [] ∧ p d = true
    · rw [if_pos (by simp [hc.1, hc.2])] at h
      cases h
    · rw [if_neg (by simpa using fun h1 h2 => hc ⟨h1, h2⟩)] at h
      rcases List.mem_cons.mp h with rfl | h'
      · exact List.mem_cons_self _ _
      · exact List.mem_cons_of_mem _ (ih h')

lemma pyStrip_head_not {l : List Char} {c : Char}
    (h : (pyStrip l).head? = some c) : isPySpace c = false := by
  unfold pyStrip at h
  have h1 := rstripList_head? h
  have h2 := List.head?_dropWhile_not isPySpace l
  rw [h1] at h2
  exact h2

lemma pyStrip_getLast_not {l : List Char} {c : Char}
    (h : (pyStrip l).getLast? = some c) : isPySpace c = false :=
  rstripList_getLast_not h

lemma pyStrip_subset {l : List Char} {c : Char} (h : c ∈ pyStrip l) : c ∈ l :=
  List.dropWhile_sublist isPySpace |>.subset (rstripList_subset h)

/-- What `_find_value` guarantees for any matcher whose captures contain no
newline: the stripped result is a single line with no surrounding whitespace. -/
lemma find_value_single_line {m : List Char → Option (List Char)} {t v : List Char}
    (hm : ∀ s cap, m s = some cap → '\n' ∉ cap)
    (h : find_value m t = some v) :
    '\n' ∉ v ∧ (∀ c, v.head? = some c → isPySpace c = false) ∧
      (∀ c, v.getLast? = some c → isPySpace c = false) := by
  unfold find_value at h
  rw [Option.map_eq_some'] at h
  obtain ⟨cap, hs, rfl⟩ := h
  have hnl := searchAux_pred m (fun cap => '\n' ∉ cap) hm t cap hs
  exact ⟨fun hmem => hnl (pyStrip_subset hmem),
         fun c hc => pyStrip_head_not hc,
         fun c hc => pyStrip_getLast_not hc⟩

/-! ### Bounds on present numeric values -/

/-- A present difficulty rating comes from a one-digit 0–5 capture. -/
lemma reDigit05_value_bounds {lit : List Char} {t : List Char} {k : Int}
    (h : find_numeric_value (reDigit05 lit) t = .ok (some k)) :
    0 ≤ k ∧ k ≤ 5 := by
  obtain ⟨cap, hs, hp⟩ := find_numeric_value_some h
  obtain ⟨c, rfl, h0, h5⟩ :=
    searchAux_pred (reDigit05 lit) (fun cap => ∃ c, cap = [c] ∧ '0' ≤ c ∧ c ≤ '5')
      (fun s cap h => reDigit05_shape h) t _ hs
  have t0 := char_toNat_le_of_le h0
  have t5 := char_toNat_le_of_le h5
  have h0' : ('0' : Char).toNat = 48 := rfl
  have h5' : ('5' : Char).toNat = 53 := rfl
  have hdigit : Char.isDigit c = true := char_isDigit_iff_toNat.mpr (by omega)
  rw [pyInt?_digits (by simp) (by simp [hdigit])] at hp
  cases hp
  rw [digitsVal_single, Int.ofNat_eq_coe]
  omega

/-- A present pain-symptom value comes from a one-or-two-digit capture, hence
lies in [0, 99]. -/
lemma reDigits12_value_bounds {lit : List Char} {t : List Char} {k : Int}
    (h : find_numeric_value (reDigits12 lit) t = .ok (some k)) :
    0 ≤ k ∧ k ≤ 99 := by
  obtain ⟨cap, hs, hp⟩ := find_numeric_value_some h
  have hshape :=
    searchAux_pred (reDigits12 lit)
      (fun cap => cap ≠ [] ∧ cap.all Char.isDigit = true ∧ cap.length ≤ 2)
      (fun s cap h => reDigits12_shape h) t _ hs
  obtain ⟨hne, hdig, hlen⟩ := hshape
  rw [pyInt?_digits hne hdig] at hp
  cases hp
  have hval := digitsVal_lt hdig
  have hpow : 10 ^ cap.length ≤ 10 ^ 2 := Nat.pow_le_pow_right (by norm_num) hlen
  have : digitsVal cap < 100 := lt_of_lt_of_le hval (by simpa using hpow)
  rw [Int.ofNat_eq_coe]
  omega

/-! ### Shapes of the assembled groups -/

lemma mem_of_lookup {β : Type} {l : List (String × β)} {k : String} {v : β}
    (h : l.lookup k = some v) : (k, v) ∈ l := by
  obtain ⟨l₁, l₂, rfl, -⟩ := List.lookup_eq_some_iff.mp h
  simp

/-- `_extract_ma_data` always produces the eight-entry vitals group, with the
numeric entries holding `_find_numeric_value` outcomes. -/
lemma extract_ma_data_shape {t : List Char} {l : List (String × Option PyVal)}
    (h : extract_ma_data t = .ok l) :
    ∃ v1 v2 v3 v4 v5 : Option Int,
      find_numeric_value (reDigitsPlus "HR".data) t = .ok v1 ∧
      find_numeric_value (reDigitsPlus "Weight".data) t = .ok v2 ∧
      find_numeric_value (reDigitsPlus "SpO2".data) t = .ok v3 ∧
      find_numeric_value (reDigitsPlus "Blood Glucose".data) t = .ok v4 ∧
      find_numeric_value (reDigitsPlus "Respirations".data) t = .ok v5 ∧
      l = [("blood_pressure",
             (find_value (reTextFlex "Blood Pressure".data) t).map (fun l => PyVal.str (String.mk l))),
           ("hr", v1.map PyVal.int),
           ("weight", v2.map PyVal.int),
           ("height",
             (find_value (reTextFlex "Height".data) t).map (fun l => PyVal.str (String.mk l))),
           ("spo2", v3.map PyVal.int),
           ("temperature",
             (find_value (reTextFlex "Temperature".data) t).map (fun l => PyVal.str (String.mk l))),
           ("blood_glucose", v4.map PyVal.int),
           ("respirations", v5.map PyVal.int)] := by
  unfold extract_ma_data at h
  cases h1 : find_numeric_value (reDigitsPlus "HR".data) t with
  | error e => rw [h1] at h; cases h
  | ok v1 =>
    rw [h1] at h
    cases h2 : find_numeric_value (reDigitsPlus "Weight".data) t with
    | error e => rw [h2] at h; cases h
    | ok v2 =>
      rw [h2] at h
      cases h3 : find_numeric_value (reDigitsPlus "SpO2".data) t with
      | error e => rw [h3] at h; cases h
      | ok v3 =>
        rw [h3] at h
        cases h4 : find_numeric_value (reDigitsPlus "Blood Glucose".data) t with
        | error e => rw [h4] at h; cases h
        | ok v4 =>
          rw [h4] at h
          cases h5 : find_numeric_value (reDigitsPlus "Respirations".data) t with
          | error e => rw [h5] at h; cases h
          | ok v5 =>
            rw [h5] at h
            cases h
            exact ⟨v1, v2, v3, v4, v5, rfl, rfl, rfl, rfl, rfl, rfl⟩

/-! ### Helpers that read single fields off a parsed record -/

lemma checkbox_value {lab t : List Char} {w : PyVal}
    (h : (find_checkbox (reCheckbox lab) t).map (fun l => PyVal.str (String.mk l)) = some w) :
    w = .str "YES" ∨ w = .str "NO" := by
  rw [Option.map_eq_some'] at h
  obtain ⟨cap, hs, rfl⟩ := h
  have hshape :=
    searchAux_pred (reCheckbox lab) (fun cap => cap = ['Y', 'E', 'S'] ∨ cap = ['N', 'O'])
      (fun s cap h => reCheckbox_shape h) t cap hs
  rcases hshape with rfl | rfl
  · left; rfl
  · right; rfl

lemma textFlex_value_single_line {lab t : List Char} {s : String}
    (h : (find_value (reTextFlex lab) t).map (fun l => PyVal.str (String.mk l)) =
      some (PyVal.str s)) :
    SingleLineTrimmed s := by
  rw [Option.map_eq_some'] at h
  obtain ⟨v, hv, hs⟩ := h
  injection hs with hs
  subst hs
  exact find_value_single_line (fun s cap h => reTextFlex_shape h) hv

lemma difficulty_lookup_bound {text name : String} {w : PyVal}
    (h : (parse_ocr_output text).map (fun r => r.difficulty_ratings.lookup name) =
      .ok (some (some w))) :
    ∃ v : Int, w = .int v ∧ 0 ≤ v ∧ v ≤ 5 := by
  obtain ⟨r, hr⟩ := parse_total text
  rw [hr] at h
  simp only [Except.map, Except.ok.injEq] at h
  obtain ⟨k, hw, hv⟩ := numericTable_mem (parse_fields hr).1 (mem_of_lookup h)
  cases k with
  | none => simp at hv
  | some v =>
    simp only [Option.map_some', Option.some.injEq] at hv
    subst hv
    exact ⟨v, rfl, reDigit05_value_bounds hw⟩

lemma pain_lookup_bound {text name : String} {w : PyVal}
    (h : (parse_ocr_output text).map (fun r => r.pain_symptoms.lookup name) =
      .ok (some (some w))) :
    ∃ v : Int, w = .int v ∧ 0 ≤ v ∧ v ≤ 99 := by
  obtain ⟨r, hr⟩ := parse_total text
  rw [hr] at h
  simp only [Except.map, Except.ok.injEq] at h
  obtain ⟨k, hw, hv⟩ := numericTable_mem (parse_fields hr).2.1 (mem_of_lookup h)
  cases k with
  | none => simp at hv
  | some v =>
    simp only [Option.map_some', Option.some.injEq] at hv
    subst hv
    exact ⟨v, rfl, reDigits12_value_bounds hw⟩

lemma lookup_head {β : Type} {k a : String} {b : β} {es : List (String × β)}
    (hk : (k == a) = true) : List.lookup k ((a, b) :: es) = some b := by
  simp [List.lookup, hk]

lemma lookup_tail {β : Type} {k a : String} {b : β} {es : List (String × β)}
    (hk : (k == a) = false) : List.lookup k ((a, b) :: es) = List.lookup k es := by
  simp [List.lookup, hk]

lemma injection_lookup_value {text : String} {w : PyVal}
    (h : (parse_ocr_output text).map (fun r => r.treatment_details.lookup "injection") =
      .ok (some (some w))) :
    w = .str "YES" ∨ w = .str "NO" := by
  obtain ⟨r, hr⟩ := parse_total text
  rw [hr] at h
  simp only [Except.map, Except.ok.injEq] at h
  rw [(parse_fields hr).2.2.2.2.1] at h
  unfold extract_treatment_info at h
  rw [lookup_tail (by decide), lookup_head (by decide), Option.some.injEq] at h
  exact checkbox_value h

lemma exercise_lookup_value {text : String} {w : PyVal}
    (h : (parse_ocr_output text).map (fun r => r.treatment_details.lookup "exercise_therapy") =
      .ok (some (some w))) :
    w = .str "YES" ∨ w = .str "NO" := by
  obtain ⟨r, hr⟩ := parse_total text
  rw [hr] at h
  simp only [Except.map, Except.ok.injEq] at h
  rw [(parse_fields hr).2.2.2.2.1] at h
  unfold extract_treatment_info at h
  rw [lookup_tail (by decide), lookup_tail (by decide), lookup_head (by decide),
      Option.some.injEq] at h
  exact checkbox_value h

lemma patient_lookup_single_line {text : String} {key : String} {s : String}
    (hkey : key = "patient_name" ∨ key = "dob")
    (h : (parse_ocr_output text).map (fun r => r.patient_details.lookup key) =
      .ok (some (some (PyVal.str s)))) :
    SingleLineTrimmed s := by
  obtain ⟨r, hr⟩ := parse_total text
  rw [hr] at h
  simp only [Except.map, Except.ok.injEq] at h
  rw [(parse_fields hr).2.2.2.1] at h
  unfold extract_patient_info at h
  rcases hkey with rfl | rfl
  · rw [lookup_head (by decide), Option.some.injEq] at h
    exact textFlex_value_single_line h
  · rw [lookup_tail (by decide), lookup_head (by decide), Option.some.injEq] at h
    exact textFlex_value_single_line h

lemma date_lookup_single_line {text : String} {s : String}
    (h : (parse_ocr_output text).map (fun r => r.treatment_details.lookup "date") =
      .ok (some (some (PyVal.str s)))) :
    SingleLineTrimmed s := by
  obtain ⟨r, hr⟩ := parse_total text
  rw [hr] at h
  simp only [Except.map, Except.ok.injEq] at h
  rw [(parse_fields hr).2.2.2.2.1] at h
  unfold extract_treatment_info at h
  rw [lookup_head (by decide), Option.some.injEq] at h
  exact textFlex_value_single_line h

lemma ma_lookup_single_line {text : String} {key : String} {s : String}
    (hkey : key = "blood_pressure" ∨ key = "height" ∨ key = "temperature")
    (h : (parse_ocr_output text).map (fun r => r.medical_assistant_data.lookup key) =
      .ok (some (some (PyVal.str s)))) :
    SingleLineTrimmed s := by
  obtain ⟨r, hr⟩ := parse_total text
  rw [hr] at h
  simp only [Except.map, Except.ok.injEq] at h
  obtain ⟨v1, v2, v3, v4, v5, _, _, _, _, _, hl⟩ := extract_ma_data_shape (parse_fields hr).2.2.1
  rw [hl] at h
  rcases hkey with rfl | rfl | rfl
  · rw [lookup_head (by decide), Option.some.injEq] at h
    exact textFlex_value_single_line h
  · rw [lookup_tail (by decide), lookup_tail (by decide), lookup_tail (by decide),
        lookup_head (by decide), Option.some.injEq] at h
    exact textFlex_value_single_line h
  · rw [lookup_tail (by decide), lookup_tail (by decide), lookup_tail (by decide),
        lookup_tail (by decide), lookup_tail (by decide), lookup_head (by decide),
        Option.some.injEq] at h
    exact textFlex_value_single_line h

/-! ## Claims -/

/-- C1: for every input text, the structured record produced by
`parse_ocr_output` contains exactly the six declared groups, and every
declared field name of every group appears as a key even when its value is
null; in particular, on the empty string every declared field key is present
with value null. -/
theorem spec_C1_all_fields_always_present :
    (∀ text : String, ∃ r, parse_ocr_output text = .ok r ∧
        r.patient_details.map Prod.fst = ["patient_name", "dob"] ∧
        r.treatment_details.map Prod.fst = ["date", "injection", "exercise_therapy"] ∧
        r.difficulty_ratings.map Prod.fst = difficulty_tasks ∧
        r.patient_changes.map Prod.fst =
          ["since_last_treatment", "since_start_of_treatment", "last_3_days"] ∧
        r.pain_symptoms.map Prod.fst = pain_symptoms ∧
        r.medical_assistant_data.map Prod.fst =
          ["blood_pressure", "hr", "weight", "height", "spo2", "temperature",
           "blood_glucose", "respirations"]) ∧
    parse_ocr_output "" = .ok emptyRecord := by
  constructor
  · intro text
    obtain ⟨r, hr⟩ := parse_total text
    obtain ⟨hdr, hps, hma, hpd, htd, hpc⟩ := parse_fields hr
    refine ⟨r, hr, ?_, ?_, ?_, ?_, ?_, ?_⟩
    · rw [hpd]; rfl
    · rw [htd]; rfl
    · exact numericTable_keys hdr
    · rw [hpc]; rfl
    · exact numericTable_keys hps
    · obtain ⟨v1, v2, v3, v4, v5, _, _, _, _, _, hl⟩ := extract_ma_data_shape hma
      rw [hl]; rfl
  · decide

/-- C6: extraction is total — for every input string, including the empty
string and arbitrary noise, `parse_ocr_output` returns a structured record
(`Except.ok`); no field-level non-match escalates to an exception. -/
theorem spec_C6_extraction_never_raises :
    ∀ text : String, ∃ r, parse_ocr_output text = .ok r :=
  parse_total

/-- C8: the extraction-and-assembly pipeline is a deterministic function of
the text alone — two runs on byte-identical input yield equal records. -/
theorem spec_C8_deterministic (t₁ t₂ : String) (r₁ r₂ : StructuredRecord)
    (ht : t₁ = t₂) (h₁ : parse_ocr_output t₁ = .ok r₁)
    (h₂ : parse_ocr_output t₂ = .ok r₂) : r₁ = r₂ := by
  subst ht
  rw [h₁] at h₂
  cases h₂
  rfl

/-- Witness for C8: two runs on the empty string both yield `emptyRecord`. -/
theorem spec_C8_deterministic_witness :
    parse_ocr_output "" = .ok emptyRecord ∧ emptyRecord = emptyRecord :=
  ⟨by decide,
   spec_C8_deterministic "" "" emptyRecord emptyRecord rfl (by decide) (by decide)⟩

/-- C10: label matching is not anchored to the start of a line or to a word
boundary: in the single-line text `"UpStairs: 3"` the label `Stairs:` occurs
only as the suffix of the longer word `UpStairs`, not at the start of the
text, yet `difficulty_ratings.stairs` resolves to 3 from that occurrence. -/
theorem spec_C10_unanchored_label_matching :
    "Stairs".data.isPrefixOf "UpStairs: 3".data = false ∧
    '\n' ∉ "UpStairs: 3".data ∧
    (parse_ocr_output "UpStairs: 3").map (fun r => r.difficulty_ratings.lookup "stairs") =
      .ok (some (some (PyVal.int 3))) := by
  refine ⟨by decide, by decide, by decide⟩

/-- Counterexample to C2: on the exact input named by the claim, the multiline
capture stops at the first line that begins with a non-whitespace character —
which is the `"sleeping more"` line, not the `"Date :"` line — so the
extracted value is `"feeling better"`, not `"feeling better\nsleeping more"`. -/
theorem spec_C2_counterexample :
    (parse_ocr_output
        "Patient changes since last treatment: feeling better\nsleeping more\nDate : 2024-01-01").map
        (fun r => r.patient_changes.lookup "since_last_treatment") =
      .ok (some (some (PyVal.str "feeling better"))) ∧
    PyVal.str "feeling better" ≠ PyVal.str "feeling better\nsleeping more" := by
  refine ⟨by decide, by decide⟩

/-- C2 (amended): on the claim's input the capture terminates before the
`"sleeping more"` line, because that line starts with a non-whitespace
character, yielding `"feeling better"`; the capture continues across a line
break only when the following line starts with whitespace, e.g. with the
continuation line indented the capture is `"feeling better\n  sleeping more"`. -/
theorem spec_C2_amended_multiline_capture :
    (parse_ocr_output
        "Patient changes since last treatment: feeling better\nsleeping more\nDate : 2024-01-01").map
        (fun r => r.patient_changes.lookup "since_last_treatment") =
      .ok (some (some (PyVal.str "feeling better"))) ∧
    (parse_ocr_output
        "Patient changes since last treatment: feeling better\n  sleeping more\nDate : 2024-01-01").map
        (fun r => r.patient_changes.lookup "since_last_treatment") =
      .ok (some (some (PyVal.str "feeling better\n  sleeping more"))) := by
  refine ⟨by decide, by decide⟩

/-- C9: every rule's value is taken from the leftmost position at which the
rule's pattern matches (`re.search` semantics of `searchAux`, used by every
`_find_*` helper); concretely, with two `Stairs:` occurrences the first one
supplies the value. -/
theorem spec_C9_leftmost_match :
    (∀ (m : List Char → Option (List Char)) (t : List Char) (i : Nat),
        (∀ j, j < i → matchAt m t j = none) → matchAt m t i ≠ none →
        searchAux m t = matchAt m t i) ∧
    (parse_ocr_output "Stairs: 2 Stairs: 4").map
        (fun r => r.difficulty_ratings.lookup "stairs") =
      .ok (some (some (PyVal.int 2))) :=
  ⟨fun m t i h1 h2 => searchAux_leftmost m t i h1 h2, by decide⟩

/-- Witness for C9: on `"xStairs: 2"` the stairs pattern fails at position 0
and matches at position 1, so the search returns the position-1 match. -/
theorem spec_C9_leftmost_match_witness :
    matchAt (reDigit05 (taskLabel "stairs")) "xStairs: 2".data 1 ≠ none ∧
    searchAux (reDigit05 (taskLabel "stairs")) "xStairs: 2".data =
      matchAt (reDigit05 (taskLabel "stairs")) "xStairs: 2".data 1 :=
  ⟨by decide,
   spec_C9_leftmost_match.1 (reDigit05 (taskLabel "stairs")) "xStairs: 2".data 1
     (fun j hj => by
       have hj0 : j = 0 := Nat.lt_one_iff.mp hj
       subst hj0
       decide)
     (by decide)⟩

/-- C3: a difficulty-rating field is a present integer only when the capture
lies within the declared one-digit 0–5 width (so any present value is in
[0, 5]); in particular `"Stairs: 3"` yields `stairs = 3` while `"Stairs: 7"`
fails the width and yields null. -/
theorem spec_C3_difficulty_digit_width :
    (∀ (text name : String) (v : Int),
        (parse_ocr_output text).map (fun r => r.difficulty_ratings.lookup name) =
          .ok (some (some (PyVal.int v))) → 0 ≤ v ∧ v ≤ 5) ∧
    (parse_ocr_output "Stairs: 3").map (fun r => r.difficulty_ratings.lookup "stairs") =
      .ok (some (some (PyVal.int 3))) ∧
    (parse_ocr_output "Stairs: 7").map (fun r => r.difficulty_ratings.lookup "stairs") =
      .ok (some none) := by
  refine ⟨?_, by decide, by decide⟩
  intro text name v h
  obtain ⟨k, hk, h0, h5⟩ := difficulty_lookup_bound h
  injection hk with hk
  subst hk
  exact ⟨h0, h5⟩

/-- Witness for C3: the general bound applied to `"Stairs: 3"`. -/
theorem spec_C3_difficulty_digit_width_witness :
    (parse_ocr_output "Stairs: 3").map (fun r => r.difficulty_ratings.lookup "stairs") =
      .ok (some (some (PyVal.int 3))) ∧ ((0 : Int) ≤ 3 ∧ (3 : Int) ≤ 5) :=
  ⟨by decide, spec_C3_difficulty_digit_width.1 "Stairs: 3" "stairs" 3 (by decide)⟩

/-- C4: the checkbox fields are present only with the enum literals `YES` or
`NO`; `"INJECTION : MAYBE"` yields null and `"INJECTION : YES"` yields
`"YES"`. -/
theorem spec_C4_checkbox_enum :
    (∀ (text : String) (w : PyVal),
        (parse_ocr_output text).map (fun r => r.treatment_details.lookup "injection") =
          .ok (some (some w)) → w = .str "YES" ∨ w = .str "NO") ∧
    (∀ (text : String) (w : PyVal),
        (parse_ocr_output text).map (fun r => r.treatment_details.lookup "exercise_therapy") =
          .ok (some (some w)) → w = .str "YES" ∨ w = .str "NO") ∧
    (parse_ocr_output "INJECTION : MAYBE").map
        (fun r => r.treatment_details.lookup "injection") = .ok (some none) ∧
    (parse_ocr_output "INJECTION : YES").map
        (fun r => r.treatment_details.lookup "injection") =
      .ok (some (some (PyVal.str "YES"))) := by
  refine ⟨?_, ?_, by decide, by decide⟩
  · intro text w h
    exact injection_lookup_value h
  · intro text w h
    exact exercise_lookup_value h

/-- Witness for C4: the enum bound applied to `"INJECTION : YES"`. -/
theorem spec_C4_checkbox_enum_witness :
    (parse_ocr_output "INJECTION : YES").map
        (fun r => r.treatment_details.lookup "injection") =
      .ok (some (some (PyVal.str "YES"))) ∧
    (PyVal.str "YES" = .str "YES" ∨ PyVal.str "YES" = .str "NO") :=
  ⟨by decide, spec_C4_checkbox_enum.1 "INJECTION : YES" (PyVal.str "YES") (by decide)⟩

/-- C7: every present difficulty rating is an integer in [0, 5] and every
present pain-symptom value is an integer in [0, 99]. -/
theorem spec_C7_numeric_ranges :
    (∀ (text name : String) (w : PyVal),
        (parse_ocr_output text).map (fun r => r.difficulty_ratings.lookup name) =
          .ok (some (some w)) → ∃ v : Int, w = .int v ∧ 0 ≤ v ∧ v ≤ 5) ∧
    (∀ (text name : String) (w : PyVal),
        (parse_ocr_output text).map (fun r => r.pain_symptoms.lookup name) =
          .ok (some (some w)) → ∃ v : Int, w = .int v ∧ 0 ≤ v ∧ v ≤ 99) :=
  ⟨fun _ _ _ h => difficulty_lookup_bound h,
   fun _ _ _ h => pain_lookup_bound h⟩

/-- Witness for C7: both range bounds at concrete inputs. -/
theorem spec_C7_numeric_ranges_witness :
    (parse_ocr_output "Stairs: 4").map (fun r => r.difficulty_ratings.lookup "stairs") =
      .ok (some (some (PyVal.int 4))) ∧
    (parse_ocr_output "Pain: 42").map (fun r => r.pain_symptoms.lookup "pain") =
      .ok (some (some (PyVal.int 42))) ∧
    (∃ v : Int, PyVal.int 4 = .int v ∧ 0 ≤ v ∧ v ≤ 5) ∧
    (∃ v : Int, PyVal.int 42 = .int v ∧ 0 ≤ v ∧ v ≤ 99) :=
  ⟨by decide, by decide,
   spec_C7_numeric_ranges.1 "Stairs: 4" "stairs" (PyVal.int 4) (by decide),
   spec_C7_numeric_ranges.2 "Pain: 42" "pain" (PyVal.int 42) (by decide)⟩

/-- Counterexample to C5: on `"DOB :\n1990-01-01"` the label's own line is
exactly `"DOB :"` — there are no characters after the label on that line —
yet `dob` resolves to `"1990-01-01"`, taken from the following line (the
pattern's `\s*` crosses the line break).  Under the claim the value would
have to be the empty string. -/
theorem spec_C5_counterexample :
    (parse_ocr_output "DOB :\n1990-01-01").map (fun r => r.patient_details.lookup "dob") =
      .ok (some (some (PyVal.str "1990-01-01"))) ∧
    "DOB :\n1990-01-01".data.takeWhile (· ≠ '\n') = "DOB :".data ∧
    ("1990-01-01" : String) ≠ "" := by
  refine ⟨by decide, by decide, by decide⟩

/-- C5 (amended): for every single-line `Text` rule (patient_name, dob, date,
blood_pressure, height, temperature) a present value contains no line break
and carries no leading or trailing whitespace; the whitespace between the
label's colon and the value may itself span line breaks, so the value may
come from a later line (`"DOB :\n1990-01-01"` yields `"1990-01-01"`); when
the label matches and the value region is blank the field is present as the
empty string, distinct from null. -/
theorem spec_C5_amended_single_line_text :
    (∀ (text s : String),
        (parse_ocr_output text).map (fun r => r.patient_details.lookup "patient_name") =
          .ok (some (some (PyVal.str s))) → SingleLineTrimmed s) ∧
    (∀ (text s : String),
        (parse_ocr_output text).map (fun r => r.patient_details.lookup "dob") =
          .ok (some (some (PyVal.str s))) → SingleLineTrimmed s) ∧
    (∀ (text s : String),
        (parse_ocr_output text).map (fun r => r.treatment_details.lookup "date") =
          .ok (some (some (PyVal.str s))) → SingleLineTrimmed s) ∧
    (∀ (text s : String) (key : String),
        key = "blood_pressure" ∨ key = "height" ∨ key = "temperature" →
        (parse_ocr_output text).map (fun r => r.medical_assistant_data.lookup key) =
          .ok (some (some (PyVal.str s))) → SingleLineTrimmed s) ∧
    (parse_ocr_output "DOB :").map (fun r => r.patient_details.lookup "dob") =
      .ok (some (some (PyVal.str ""))) ∧
    (parse_ocr_output "DOB :\n1990-01-01").map (fun r => r.patient_details.lookup "dob") =
      .ok (some (some (PyVal.str "1990-01-01"))) := by
  refine ⟨?_, ?_, ?_, ?_, by decide, by decide⟩
  · intro text s h
    exact patient_lookup_single_line (Or.inl rfl) h
  · intro text s h
    exact patient_lookup_single_line (Or.inr rfl) h
  · intro text s h
    exact date_lookup_single_line h
  · intro text s key hkey h
    exact ma_lookup_single_line hkey h

/-- Witness for C5 (amended): `"DOB : x"` yields the present, trimmed,
single-line value `"x"`. -/
theorem spec_C5_amended_single_line_text_witness :
    (parse_ocr_output "DOB : x").map (fun r => r.patient_details.lookup "dob") =
      .ok (some (some (PyVal.str "x"))) ∧ SingleLineTrimmed "x" :=
  ⟨by decide,
   spec_C5_amended_single_line_text.2.1 "DOB : x" "x" (by decide)⟩

end FormProc
